import Mathlib

/-!
Verification of the `RedisStorageDelegate` secure key/value storage adapter
from `jupyter_health/ch_client.py`.

The adapter keeps three pieces of state that matter to the claims:
  * the remote Redis hash record named `self.name` (the only record these
    methods ever touch),
  * `self._cached_value`, which is either `None` or a reference to a Python
    `dict` object produced by `hgetall`,
  * the Python heap of `dict` objects, which we model explicitly because
    `keys()` / `items()` return live views onto a particular `dict` object,
    and `_load` rebinds `self._cached_value` to a *fresh* `dict`.

Python `dict`s with string keys and values are modelled as insertion-ordered
association lists.  A trace (`log`) of the Redis commands issued is recorded
so that claims of the form "no persist is performed" are statable.
-/

set_option autoImplicit false

namespace JupyterHealth

/-- A Python `dict` with string keys and string values, as an
insertion-ordered association list (Python dicts preserve insertion order;
keys are unique in any dict built by dict operations). -/
abbrev Dict := List (String × String)

/-- `d.get(key)` / `d[key]`: the value at the first entry whose key is
`key`, if any. -/
def Dict.lookup? : Dict → String → Option String
  | [], _ => none
  | (k, v) :: rest, key => if k = key then some v else Dict.lookup? rest key

/-- `key in d`. -/
def Dict.containsKey (d : Dict) (key : String) : Bool :=
  (Dict.lookup? d key).isSome

/-- `d[key] = value`: replace the value at the entry for `key` keeping its
position, or append a new entry if `key` is absent. -/
def Dict.setItem : Dict → String → String → Dict
  | [], key, value => [(key, value)]
  | (k, v) :: rest, key, value =>
      if k = key then (k, value) :: rest
      else (k, v) :: Dict.setItem rest key value

/-- `d.pop(key)`: remove the entry for `key` (the first one, which is the
only one when keys are unique). -/
def Dict.pop : Dict → String → Dict
  | [], _ => []
  | (k, v) :: rest, key =>
      if k = key then rest else (k, v) :: Dict.pop rest key

/-- The effect of the Redis `HSET name mapping` command on the stored hash:
every field of `mapping` is written into the hash (existing fields keep
their position, new fields are appended).  Fields of the hash that are
absent from `mapping` are left untouched: `HSET` merges, it does not
overwrite the record. -/
def Dict.hsetAll (r : Dict) (mapping : Dict) : Dict :=
  mapping.foldl (fun acc kv => Dict.setItem acc kv.1 kv.2) r

/-- The Redis commands the adapter can issue against its record, recorded
in the trace. -/
inductive StoreOp where
  | hgetall : StoreOp
  | hset : Dict → StoreOp
deriving DecidableEq, Repr

/-- The Python exceptions relevant to the adapter. -/
inductive PyError where
  | notImplementedError : String → PyError
  | typeError : String → PyError
  | dataError : String → PyError
deriving DecidableEq, Repr

deriving instance DecidableEq for Except

/-- State of one `RedisStorageDelegate` instance together with its Redis
record and the Python heap of dict objects.

  * `heap`: the allocated `dict` objects; an address is an index into this
    list.  `hgetall` allocates a fresh dict each time it is called.
  * `cacheRef`: `self._cached_value` — `none` (Python `None`) or the address
    of the cached dict.
  * `redis`: the contents of the Redis hash record `self.name`.
  * `log`: the trace of Redis commands issued so far. -/
structure DelegateState where
  heap : List Dict
  cacheRef : Option Nat
  redis : Dict
  log : List StoreOp
deriving DecidableEq, Repr

namespace Redis

/-- `self.redis.hgetall(self.name)`: returns (a fresh copy of) all fields
of the record as a dict.  Never raises in this model. -/
def hgetall (s : DelegateState) : Dict × DelegateState :=
  (s.redis, { s with log := s.log ++ [StoreOp.hgetall] })

/-- `self.redis.hset(self.name, mapping=mapping)`: redis-py raises
`DataError` when `mapping` is empty (before issuing any command), otherwise
merges the mapping into the record. -/
def hset (mapping : Dict) (s : DelegateState) :
    Except PyError Unit × DelegateState :=
  if mapping.isEmpty then
    (Except.error (PyError.dataError "hset with no key value pairs"), s)
  else
    (Except.ok (), { s with redis := Dict.hsetAll s.redis mapping,
                            log := s.log ++ [StoreOp.hset mapping] })

end Redis

namespace RedisStorageDelegate

/-- `_load`: `self._cached_value = self.redis.hgetall(self.name)`.
The result of `hgetall` is a fresh dict object; the cache is rebound to its
address. -/
def load (s : DelegateState) : DelegateState :=
  let (v, s₁) := Redis.hgetall s
  { s₁ with heap := s₁.heap ++ [v], cacheRef := some s₁.heap.length }

/-- `_save`: `if self._cached_value is not None: self.redis.hset(self.name,
mapping=self._cached_value)`. -/
def save (s : DelegateState) : Except PyError Unit × DelegateState :=
  match s.cacheRef with
  | none => (Except.ok (), s)
  | some a => Redis.hset (s.heap.getD a []) s

/-- The `_secret_value` property: loads the record if it has not been loaded
yet, then returns (the address of) the cached dict. -/
def secretValue (s : DelegateState) : Nat × DelegateState :=
  match s.cacheRef with
  | some a => (a, s)
  | none =>
      let s₁ := load s
      (s₁.cacheRef.getD 0, s₁)

/-- `get_secure_value(key, default=None)`:
`return self._secret_value.get(key, default)`. -/
def get_secure_value (key : String) (dflt : Option String)
    (s : DelegateState) : Option String × DelegateState :=
  let (a, s₁) := secretValue s
  (match Dict.lookup? (s₁.heap.getD a []) key with
   | some v => some v
   | none => dflt, s₁)

/-- `set_secure_value(key, value)`: `self._load()` (load before writing to
avoid writing back stale state), `self._secret_value[key] = value`,
`self._save()`. -/
def set_secure_value (key value : String) (s : DelegateState) :
    Except PyError Unit × DelegateState :=
  let s₁ := load s
  let (a, s₂) := secretValue s₁
  let s₃ := { s₂ with
    heap := s₂.heap.set a (Dict.setItem (s₂.heap.getD a []) key value) }
  save s₃

/-- `clear_value(key)`: `if key not in self._secret_value: return`, else
`self._secret_value.pop(key)` followed by `self._save()`. -/
def clear_value (key : String) (s : DelegateState) :
    Except PyError Unit × DelegateState :=
  let (a, s₁) := secretValue s
  if Dict.containsKey (s₁.heap.getD a []) key = false then
    (Except.ok (), s₁)
  else
    let s₂ := { s₁ with heap := s₁.heap.set a (Dict.pop (s₁.heap.getD a []) key) }
    save s₂

/-- The body of `clear_all_values` as written in the source:
`raise NotImplementedError("Clear all values not allowed")`. -/
def clear_all_values_body : Except PyError Unit :=
  Except.error (PyError.notImplementedError "Clear all values not allowed")

/-- Invoking `delegate.clear_all_values()` on an instance.  The source
declares `def clear_all_values() -> None:` with *no* `self` parameter, so
the bound-method call passes the instance as one positional argument to a
zero-parameter function and Python raises `TypeError` before the body (the
intended `NotImplementedError`) ever runs; the state is untouched. -/
def clear_all_values (s : DelegateState) :
    Except PyError Unit × DelegateState :=
  (Except.error (PyError.typeError
    "clear_all_values takes 0 positional arguments but 1 was given"), s)

/-- `keys()`: `return self._secret_value.keys()` — a `KeysView`, i.e. a live
view onto the dict object the cache currently references; we model the view
by the address of that dict. -/
def keys (s : DelegateState) : Nat × DelegateState :=
  secretValue s

/-- `items()`: `return self._secret_value.items()` — same as `keys`, pair
form; the view is again the address of the cached dict. -/
def items (s : DelegateState) : Nat × DelegateState :=
  secretValue s

/-- Enumerating a `KeysView` with address `a` in state `s`: the keys of the
dict object currently stored at `a`. -/
def viewKeys (s : DelegateState) (a : Nat) : List String :=
  (s.heap.getD a []).map Prod.fst

/-- Enumerating an `ItemsView` with address `a` in state `s`: the entries of
the dict object currently stored at `a`. -/
def viewItems (s : DelegateState) (a : Nat) : Dict :=
  s.heap.getD a []

/-- The map `self._secret_value` would denote, without performing the lazy
load: the cached dict when a cache exists, otherwise the remote record
(which is exactly what the lazy load would cache). -/
def secretMap (s : DelegateState) : Dict :=
  match s.cacheRef with
  | some a => s.heap.getD a []
  | none => s.redis

end RedisStorageDelegate

/-! ### List helpers -/

lemma set_append_self {α : Type _} (l : List α) (x y : α) :
    (l ++ [x]).set l.length y = l ++ [y] := by
  induction l with
  | nil => rfl
  | cons h t ih => simp [List.set, ih]

lemma getD_append_self {α : Type _} (l : List α) (x d : α) :
    (l ++ [x]).getD l.length d = x := by
  induction l with
  | nil => rfl
  | cons h t ih =>
      simp only [List.cons_append, List.length_cons]
      exact ih

lemma getD_append_lt {α : Type _} (l : List α) (x d : α) (a : Nat)
    (h : a < l.length) : (l ++ [x]).getD a d = l.getD a d := by
  induction l generalizing a with
  | nil => cases h
  | cons hd t ih =>
      cases a with
      | zero => rfl
      | succ n => simpa using ih n (by simpa using h)

lemma getD_set_self {α : Type _} (l : List α) (a : Nat) (x d : α)
    (h : a < l.length) : (l.set a x).getD a d = x := by
  induction l generalizing a with
  | nil => cases h
  | cons hd t ih =>
      cases a with
      | zero => rfl
      | succ n => simpa [List.set] using ih n (by simpa using h)

lemma getD_of_length_le {α : Type _} (l : List α) (a : Nat) (d : α)
    (h : l.length ≤ a) : l.getD a d = d := by
  induction l generalizing a with
  | nil => cases a <;> rfl
  | cons hd t ih =>
      cases a with
      | zero => cases h
      | succ n => simpa using ih n (by simpa using h)

/-! ### Dict lemmas -/

lemma lookup_setItem_self (d : Dict) (k v : String) :
    Dict.lookup? (Dict.setItem d k v) k = some v := by
  induction d with
  | nil => simp [Dict.setItem, Dict.lookup?]
  | cons hd t ih =>
      obtain ⟨k₀, v₀⟩ := hd
      by_cases h : k₀ = k <;> simp [Dict.setItem, Dict.lookup?, h, ih]

lemma lookup_setItem_ne (d : Dict) (k v k' : String) (h : k' ≠ k) :
    Dict.lookup? (Dict.setItem d k v) k' = Dict.lookup? d k' := by
  induction d with
  | nil => simp [Dict.setItem, Dict.lookup?, Ne.symm h]
  | cons hd t ih =>
      obtain ⟨k₀, v₀⟩ := hd
      by_cases h₀ : k₀ = k
      · subst h₀
        simp [Dict.setItem, Dict.lookup?, Ne.symm h]
      · simp [Dict.setItem, Dict.lookup?, h₀, ih]

lemma setItem_isEmpty (d : Dict) (k v : String) :
    (Dict.setItem d k v).isEmpty = false := by
  induction d with
  | nil => rfl
  | cons hd t ih =>
      obtain ⟨k₀, v₀⟩ := hd
      by_cases h : k₀ = k <;> simp [Dict.setItem, h]

lemma lookup_pop_ne (d : Dict) (k k' : String) (h : k' ≠ k) :
    Dict.lookup? (Dict.pop d k) k' = Dict.lookup? d k' := by
  induction d with
  | nil => rfl
  | cons hd t ih =>
      obtain ⟨k₀, v₀⟩ := hd
      by_cases h₀ : k₀ = k
      · subst h₀
        simp [Dict.pop, Dict.lookup?, Ne.symm h]
      · simp [Dict.pop, Dict.lookup?, h₀, ih]

lemma lookup_eq_none_of_not_mem (d : Dict) (k : String)
    (h : k ∉ d.map Prod.fst) : Dict.lookup? d k = none := by
  induction d with
  | nil => rfl
  | cons hd t ih =>
      obtain ⟨k₀, v₀⟩ := hd
      simp only [List.map_cons, List.mem_cons, not_or] at h
      simp [Dict.lookup?, Ne.symm h.1, ih h.2]

lemma lookup_hsetAll_none (r m : Dict) (k : String)
    (h : Dict.lookup? m k = none) :
    Dict.lookup? (Dict.hsetAll r m) k = Dict.lookup? r k := by
  induction m generalizing r with
  | nil => rfl
  | cons hd t ih =>
      obtain ⟨k₀, v₀⟩ := hd
      by_cases h₀ : k₀ = k
      · simp [Dict.lookup?, h₀] at h
      · have ht : Dict.lookup? t k = none := by simpa [Dict.lookup?, h₀] using h
        calc Dict.lookup? (Dict.hsetAll (Dict.setItem r k₀ v₀) t) k
            = Dict.lookup? (Dict.setItem r k₀ v₀) k := ih _ ht
          _ = Dict.lookup? r k := lookup_setItem_ne r k₀ v₀ k (fun e => h₀ e.symm)

lemma lookup_hsetAll_some (r m : Dict) (k v : String)
    (hnd : (m.map Prod.fst).Nodup) (h : Dict.lookup? m k = some v) :
    Dict.lookup? (Dict.hsetAll r m) k = some v := by
  induction m generalizing r with
  | nil => simp [Dict.lookup?] at h
  | cons hd t ih =>
      obtain ⟨k₀, v₀⟩ := hd
      simp only [List.map_cons, List.nodup_cons] at hnd
      by_cases h₀ : k₀ = k
      · subst h₀
        have hv : v₀ = v := by simpa [Dict.lookup?] using h
        have ht : Dict.lookup? t k₀ = none :=
          lookup_eq_none_of_not_mem t k₀ hnd.1
        calc Dict.lookup? (Dict.hsetAll (Dict.setItem r k₀ v₀) t) k₀
            = Dict.lookup? (Dict.setItem r k₀ v₀) k₀ := lookup_hsetAll_none _ t k₀ ht
          _ = some v := by rw [lookup_setItem_self, hv]
      · have ht : Dict.lookup? t k = some v := by simpa [Dict.lookup?, h₀] using h
        exact ih (Dict.setItem r k₀ v₀) hnd.2 ht

lemma mem_map_fst_setItem (d : Dict) (k v k' : String) :
    k' ∈ (Dict.setItem d k v).map Prod.fst ↔
      k' ∈ d.map Prod.fst ∨ k' = k := by
  induction d with
  | nil => simp [Dict.setItem]
  | cons hd t ih =>
      obtain ⟨k₀, v₀⟩ := hd
      by_cases h : k₀ = k
      · subst h
        simp [Dict.setItem]
        tauto
      · simp [Dict.setItem, h, ih]
        tauto

lemma nodup_setItem (d : Dict) (k v : String)
    (h : (d.map Prod.fst).Nodup) :
    ((Dict.setItem d k v).map Prod.fst).Nodup := by
  induction d with
  | nil => simp [Dict.setItem]
  | cons hd t ih =>
      obtain ⟨k₀, v₀⟩ := hd
      simp only [List.map_cons, List.nodup_cons] at h
      by_cases hk : k₀ = k
      · subst hk
        simpa [Dict.setItem] using h
      · have hmain : Dict.setItem ((k₀, v₀) :: t) k v = (k₀, v₀) :: Dict.setItem t k v := by
          simp [Dict.setItem, hk]
        rw [hmain, List.map_cons, List.nodup_cons]
        refine ⟨?_, ih h.2⟩
        intro hmem
        rcases (mem_map_fst_setItem t k v k₀).mp hmem with h₁ | h₁
        · exact h.1 h₁
        · exact hk h₁

/-! ### Characterizations of the adapter operations -/

open RedisStorageDelegate

lemma load_eq (s : DelegateState) :
    load s = { s with heap := s.heap ++ [s.redis],
                      cacheRef := some s.heap.length,
                      log := s.log ++ [StoreOp.hgetall] } := rfl

lemma set_spec (s : DelegateState) (k v : String) :
    set_secure_value k v s =
      (Except.ok (),
       { heap := s.heap ++ [Dict.setItem s.redis k v],
         cacheRef := some s.heap.length,
         redis := Dict.hsetAll s.redis (Dict.setItem s.redis k v),
         log := s.log ++ [StoreOp.hgetall,
                          StoreOp.hset (Dict.setItem s.redis k v)] }) := by
  simp [set_secure_value, load_eq, secretValue, save, Redis.hset,
        set_append_self, getD_append_self, setItem_isEmpty]

lemma get_spec_cached (s : DelegateState) (a : Nat) (k : String)
    (dflt : Option String) (ha : s.cacheRef = some a) :
    get_secure_value k dflt s =
      (match Dict.lookup? (s.heap.getD a []) k with
       | some v => some v
       | none => dflt, s) := by
  simp [get_secure_value, secretValue, ha]

lemma get_spec_uncached (s : DelegateState) (k : String)
    (dflt : Option String) (ha : s.cacheRef = none) :
    get_secure_value k dflt s =
      (match Dict.lookup? s.redis k with
       | some v => some v
       | none => dflt,
       { s with heap := s.heap ++ [s.redis],
                cacheRef := some s.heap.length,
                log := s.log ++ [StoreOp.hgetall] }) := by
  simp [get_secure_value, secretValue, ha, load_eq, getD_append_self]

lemma clear_spec_absent_cached (s : DelegateState) (a : Nat) (k : String)
    (ha : s.cacheRef = some a)
    (hk : Dict.containsKey (s.heap.getD a []) k = false) :
    clear_value k s = (Except.ok (), s) := by
  have hk' : Dict.containsKey (s.heap[a]?.getD []) k = false := by
    rw [← List.getD_eq_getElem?_getD]
    exact hk
  simp [clear_value, secretValue, ha, hk']

lemma clear_spec_absent_uncached (s : DelegateState) (k : String)
    (ha : s.cacheRef = none) (hk : Dict.containsKey s.redis k = false) :
    clear_value k s =
      (Except.ok (), { s with heap := s.heap ++ [s.redis],
                              cacheRef := some s.heap.length,
                              log := s.log ++ [StoreOp.hgetall] }) := by
  simp [clear_value, secretValue, ha, load_eq, getD_append_self, hk]

lemma clear_spec_present_cached (s : DelegateState) (a : Nat) (m : Dict)
    (k : String) (ha : s.cacheRef = some a) (hlt : a < s.heap.length)
    (hm : s.heap.getD a [] = m) (hk : Dict.containsKey m k = true) :
    clear_value k s =
      (if (Dict.pop m k).isEmpty then
         (Except.error (PyError.dataError "hset with no key value pairs"),
          { s with heap := s.heap.set a (Dict.pop m k) })
       else
         (Except.ok (),
          { s with heap := s.heap.set a (Dict.pop m k),
                   redis := Dict.hsetAll s.redis (Dict.pop m k),
                   log := s.log ++ [StoreOp.hset (Dict.pop m k)] })) := by
  have hm' : s.heap[a]?.getD [] = m := by
    rw [← List.getD_eq_getElem?_getD]
    exact hm
  have hset : (s.heap.set a (Dict.pop m k))[a]?.getD [] = Dict.pop m k := by
    rw [← List.getD_eq_getElem?_getD]
    exact getD_set_self s.heap a (Dict.pop m k) [] hlt
  simp [clear_value, secretValue, save, Redis.hset, ha, hm', hk, hset]

lemma clear_spec_present_uncached (s : DelegateState) (k : String)
    (ha : s.cacheRef = none) (hk : Dict.containsKey s.redis k = true) :
    clear_value k s =
      (if (Dict.pop s.redis k).isEmpty then
         (Except.error (PyError.dataError "hset with no key value pairs"),
          { s with heap := s.heap ++ [Dict.pop s.redis k],
                   cacheRef := some s.heap.length,
                   log := s.log ++ [StoreOp.hgetall] })
       else
         (Except.ok (),
          { s with heap := s.heap ++ [Dict.pop s.redis k],
                   cacheRef := some s.heap.length,
                   redis := Dict.hsetAll s.redis (Dict.pop s.redis k),
                   log := s.log ++ [StoreOp.hgetall,
                                    StoreOp.hset (Dict.pop s.redis k)] })) := by
  simp [clear_value, secretValue, save, Redis.hset, ha, load_eq, hk,
        getD_append_self, set_append_self]

/-! ### Claims -/

/-- Claim C1: if an adapter instance has loaded the record (it holds some
cached dict), a concurrent writer then changes the remote record, and the
instance calls `set_secure_value k v`, then because `set_secure_value`
reloads the record from Redis before persisting, the final remote record
holds `v` at `k` and the concurrent writer's entries at every other key —
not the stale cached view plus the new entry. -/
theorem C1_set_reload_keeps_concurrent_writes
    (s : DelegateState) (a : Nat) (stale : Dict) (k v : String)
    (_hload : s.cacheRef = some a) (_hstale : s.heap.getD a [] = stale)
    (hnd : (s.redis.map Prod.fst).Nodup) :
    (set_secure_value k v s).1 = Except.ok () ∧
    Dict.lookup? (set_secure_value k v s).2.redis k = some v ∧
    ∀ k', k' ≠ k →
      Dict.lookup? (set_secure_value k v s).2.redis k' =
        Dict.lookup? s.redis k' := by
  rw [set_spec]
  refine ⟨rfl, ?_, ?_⟩
  · exact lookup_hsetAll_some s.redis (Dict.setItem s.redis k v) k v
      (nodup_setItem s.redis k v hnd) (lookup_setItem_self s.redis k v)
  · intro k' hk'
    show Dict.lookup? (Dict.hsetAll s.redis (Dict.setItem s.redis k v)) k' =
      Dict.lookup? s.redis k'
    cases hR : Dict.lookup? s.redis k' with
    | none =>
        have h' : Dict.lookup? (Dict.setItem s.redis k v) k' = none := by
          rw [lookup_setItem_ne s.redis k v k' hk']
          exact hR
        rw [lookup_hsetAll_none s.redis (Dict.setItem s.redis k v) k' h', hR]
    | some w =>
        have h' : Dict.lookup? (Dict.setItem s.redis k v) k' = some w := by
          rw [lookup_setItem_ne s.redis k v k' hk']
          exact hR
        exact lookup_hsetAll_some s.redis (Dict.setItem s.redis k v) k' w
          (nodup_setItem s.redis k v hnd) h'

/-- Witness for C1: instance A loaded the record when it was `a ↦ 1`; a
concurrent writer made the remote record `a ↦ 1, b ↦ 2`; A sets `c ↦ 3` and
the final remote record is `a ↦ 1, b ↦ 2, c ↦ 3`. -/
theorem C1_witness :
    Dict.lookup?
      (set_secure_value "c" "3"
        (⟨[[("a", "1")]], some 0, [("a", "1"), ("b", "2")],
          [StoreOp.hgetall]⟩ : DelegateState)).2.redis "c" = some "3" ∧
    Dict.lookup?
      (set_secure_value "c" "3"
        (⟨[[("a", "1")]], some 0, [("a", "1"), ("b", "2")],
          [StoreOp.hgetall]⟩ : DelegateState)).2.redis "b" = some "2" ∧
    Dict.lookup?
      (set_secure_value "c" "3"
        (⟨[[("a", "1")]], some 0, [("a", "1"), ("b", "2")],
          [StoreOp.hgetall]⟩ : DelegateState)).2.redis "a" = some "1" := by
  have H := C1_set_reload_keeps_concurrent_writes
    (⟨[[("a", "1")]], some 0, [("a", "1"), ("b", "2")],
      [StoreOp.hgetall]⟩ : DelegateState) 0 [("a", "1")] "c" "3"
    rfl rfl (by decide)
  refine ⟨H.2.1, ?_, ?_⟩
  · rw [H.2.2 "b" (by decide)]
    decide
  · rw [H.2.2 "a" (by decide)]
    decide

/-- Claim C7: `set_secure_value k v` followed by `get_secure_value k` on the
same instance, with no intervening external write, returns `v`. -/
theorem C7_set_get_roundtrip (s : DelegateState) (k v : String) :
    (get_secure_value k none (set_secure_value k v s).2).1 = some v := by
  rw [set_spec]
  rw [get_spec_cached _ s.heap.length k none rfl]
  simp [getD_append_self, lookup_setItem_self]

/-- Claim C8: `get_secure_value` of a key absent from the stored record
returns the caller-supplied default and never errors; its only side effect
is the lazy load of the record when no cache exists yet (the remote record
is untouched, no `hset` is issued, and with a cache present the whole state
is unchanged). -/
theorem C8_get_missing_returns_default
    (s : DelegateState) (k : String) (d : Option String)
    (h : Dict.lookup? (secretMap s) k = none) :
    (get_secure_value k d s).1 = d ∧
    (get_secure_value k d s).2.redis = s.redis ∧
    (get_secure_value k d s).2.log.drop s.log.length =
      (match s.cacheRef with
       | some _ => ([] : List StoreOp)
       | none => [StoreOp.hgetall]) ∧
    (∀ a, s.cacheRef = some a → (get_secure_value k d s).2 = s) := by
  cases hc : s.cacheRef with
  | some a =>
      have hm : Dict.lookup? (s.heap.getD a []) k = none := by
        simpa [secretMap, hc] using h
      have hm' : Dict.lookup? (s.heap[a]?.getD []) k = none := by
        rw [← List.getD_eq_getElem?_getD]
        exact hm
      rw [get_spec_cached s a k d hc]
      refine ⟨by simp [hm'], rfl, by simp [hc], fun a' _ => rfl⟩
  | none =>
      have hm : Dict.lookup? s.redis k = none := by
        simpa [secretMap, hc] using h
      rw [get_spec_uncached s k d hc]
      refine ⟨by simp [hm], rfl, by simp [hc, List.drop_left], ?_⟩
      intro a' ha'
      cases ha'

/-- Witness for C8: an uncached adapter over the record `a ↦ 1`, queried at
the absent key `z` with default `d`, returns `d` and leaves the remote
record unchanged. -/
theorem C8_witness :
    (get_secure_value "z" (some "d")
      (⟨[], none, [("a", "1")], []⟩ : DelegateState)).1 = some "d" ∧
    (get_secure_value "z" (some "d")
      (⟨[], none, [("a", "1")], []⟩ : DelegateState)).2.redis =
        [("a", "1")] := by
  have H := C8_get_missing_returns_default
    (⟨[], none, [("a", "1")], []⟩ : DelegateState) "z" (some "d") (by decide)
  exact ⟨H.1, H.2.1⟩

/-- Claim C9: `clear_value` of a key absent from the stored record is an
error-free no-op: the remote record is unchanged, no `hset` is issued (with
a cache present the whole state is unchanged; without one the only effect
is the lazy `hgetall` load). -/
theorem C9_clear_absent_noop
    (s : DelegateState) (k : String)
    (h : Dict.containsKey (secretMap s) k = false) :
    (clear_value k s).1 = Except.ok () ∧
    (clear_value k s).2.redis = s.redis ∧
    (clear_value k s).2.log.drop s.log.length =
      (match s.cacheRef with
       | some _ => ([] : List StoreOp)
       | none => [StoreOp.hgetall]) ∧
    (∀ a, s.cacheRef = some a → (clear_value k s).2 = s) := by
  cases hc : s.cacheRef with
  | some a =>
      have hk : Dict.containsKey (s.heap.getD a []) k = false := by
        simpa [secretMap, hc] using h
      rw [clear_spec_absent_cached s a k hc hk]
      exact ⟨rfl, rfl, by simp [hc], fun a' _ => rfl⟩
  | none =>
      have hk : Dict.containsKey s.redis k = false := by
        simpa [secretMap, hc] using h
      rw [clear_spec_absent_uncached s k hc hk]
      refine ⟨rfl, rfl, by simp [hc, List.drop_left], ?_⟩
      intro a' ha'
      cases ha'

/-- Witness for C9: clearing the absent key `z` on a cached adapter over the
record `a ↦ 1` succeeds and changes nothing at all. -/
theorem C9_witness :
    (clear_value "z"
      (⟨[[("a", "1")]], some 0, [("a", "1")],
        [StoreOp.hgetall]⟩ : DelegateState)).1 = Except.ok () ∧
    (clear_value "z"
      (⟨[[("a", "1")]], some 0, [("a", "1")],
        [StoreOp.hgetall]⟩ : DelegateState)).2 =
      (⟨[[("a", "1")]], some 0, [("a", "1")],
        [StoreOp.hgetall]⟩ : DelegateState) := by
  have H := C9_clear_absent_noop
    (⟨[[("a", "1")]], some 0, [("a", "1")],
      [StoreOp.hgetall]⟩ : DelegateState) "z" (by decide)
  exact ⟨H.1, H.2.2.2 0 rfl⟩

/-- Claim C10: when the stored record holds exactly one key, `clear_value`
of that key empties the in-memory dict and hands the empty mapping to the
persist step; redis-py rejects `hset` with an empty mapping, so the call
raises `DataError` from the store layer: the cached dict ends up empty, no
write reaches Redis, and the remote record is unchanged. -/
theorem C10_clear_last_key_raises
    (s : DelegateState) (k v : String) (h : secretMap s = [(k, v)]) :
    (clear_value k s).1 =
      Except.error (PyError.dataError "hset with no key value pairs") ∧
    (clear_value k s).2.redis = s.redis ∧
    (∃ a, (clear_value k s).2.cacheRef = some a ∧
      (clear_value k s).2.heap.getD a [] = []) ∧
    (clear_value k s).2.log.drop s.log.length =
      (match s.cacheRef with
       | some _ => ([] : List StoreOp)
       | none => [StoreOp.hgetall]) := by
  cases hc : s.cacheRef with
  | some a =>
      have hm : s.heap.getD a [] = [(k, v)] := by
        simpa [secretMap, hc] using h
      have hlt : a < s.heap.length := by
        by_contra hge
        push_neg at hge
        rw [getD_of_length_le s.heap a [] hge] at hm
        cases hm
      have hk : Dict.containsKey ([(k, v)] : Dict) k = true := by
        simp [Dict.containsKey, Dict.lookup?]
      have hpop : Dict.pop ([(k, v)] : Dict) k = [] := by
        simp [Dict.pop]
      have hres : clear_value k s =
          (Except.error (PyError.dataError "hset with no key value pairs"),
           { s with heap := s.heap.set a ([] : Dict) }) := by
        rw [clear_spec_present_cached s a [(k, v)] k hc hlt hm hk, hpop]
        simp
      rw [hres]
      exact ⟨rfl, rfl, ⟨a, hc, getD_set_self s.heap a [] [] hlt⟩,
        by simp [hc]⟩
  | none =>
      have hm : s.redis = [(k, v)] := by
        simpa [secretMap, hc] using h
      have hk : Dict.containsKey s.redis k = true := by
        rw [hm]
        simp [Dict.containsKey, Dict.lookup?]
      have hpop : Dict.pop s.redis k = [] := by
        rw [hm]
        simp [Dict.pop]
      have hres : clear_value k s =
          (Except.error (PyError.dataError "hset with no key value pairs"),
           { s with heap := s.heap ++ [([] : Dict)],
                    cacheRef := some s.heap.length,
                    log := s.log ++ [StoreOp.hgetall] }) := by
        rw [clear_spec_present_uncached s k hc hk, hpop]
        simp
      rw [hres]
      exact ⟨rfl, rfl,
        ⟨s.heap.length, rfl, getD_append_self s.heap [] []⟩,
        by simp [hc, List.drop_left]⟩

/-- Witness for C10: the record holds exactly `k ↦ v`; clearing `k` raises
`DataError` and the remote record still holds `k ↦ v`. -/
theorem C10_witness :
    (clear_value "k" (⟨[], none, [("k", "v")], []⟩ : DelegateState)).1 =
      Except.error (PyError.dataError "hset with no key value pairs") ∧
    (clear_value "k" (⟨[], none, [("k", "v")], []⟩ : DelegateState)).2.redis =
      [("k", "v")] := by
  have H := C10_clear_last_key_raises
    (⟨[], none, [("k", "v")], []⟩ : DelegateState) "k" "v" (by decide)
  exact ⟨H.1, H.2.1⟩

/-- Claim C2 counterexample: a delegate whose cache is the stale dict
`a ↦ 1, c ↦ 3` while the remote record is `a ↦ 1, b ↦ 2, c ↦ 3` runs
`clear_value "c"`.  The claim says every mutating operation starts with a
forced reload, so the persisted map would derive from the remote state
(`Dict.pop` of the remote record, `a ↦ 1, b ↦ 2`); but the operation issues
no `hgetall` at all and persists `a ↦ 1`, derived from the stale cache. -/
theorem C2_counterexample :
    (clear_value "c"
      (⟨[[("a", "1"), ("c", "3")]], some 0,
        [("a", "1"), ("b", "2"), ("c", "3")], []⟩ : DelegateState)).1 =
      Except.ok () ∧
    (clear_value "c"
      (⟨[[("a", "1"), ("c", "3")]], some 0,
        [("a", "1"), ("b", "2"), ("c", "3")], []⟩ : DelegateState)).2.log =
      [StoreOp.hset [("a", "1")]] ∧
    Dict.pop
      (⟨[[("a", "1"), ("c", "3")]], some 0,
        [("a", "1"), ("b", "2"), ("c", "3")], []⟩ : DelegateState).redis "c" =
      [("a", "1"), ("b", "2")] ∧
    (clear_value "c"
      (⟨[[("a", "1"), ("c", "3")]], some 0,
        [("a", "1"), ("b", "2"), ("c", "3")], []⟩ : DelegateState)).2.log ≠
      [StoreOp.hset [("a", "1"), ("b", "2")]] := by
  decide

/-- Claim C2, amended: `set_secure_value` does invalidate the cache with a
forced reload before mutating and persisting (its cache and the persisted
map derive from the remote record, and its trace is `hgetall` then `hset`);
but `clear_value` performs no reload — it mutates whatever dict the lazy
`_secret_value` property yields (the existing cache when present) and
persists that, issuing no `hgetall`. -/
theorem C2_amended_only_set_reloads
    (s s₂ : DelegateState) (k v k₂ : String) (a : Nat) (m : Dict)
    (ha : s₂.cacheRef = some a) (hlt : a < s₂.heap.length)
    (hm : s₂.heap.getD a [] = m) (hk : Dict.containsKey m k₂ = true)
    (hne : (Dict.pop m k₂).isEmpty = false) :
    (set_secure_value k v s).2.cacheRef = some s.heap.length ∧
    (set_secure_value k v s).2.heap.getD s.heap.length [] =
      Dict.setItem s.redis k v ∧
    (set_secure_value k v s).2.log =
      s.log ++ [StoreOp.hgetall, StoreOp.hset (Dict.setItem s.redis k v)] ∧
    (clear_value k₂ s₂).2.heap.getD a [] = Dict.pop m k₂ ∧
    (clear_value k₂ s₂).2.log = s₂.log ++ [StoreOp.hset (Dict.pop m k₂)] := by
  rw [set_spec, clear_spec_present_cached s₂ a m k₂ ha hlt hm hk]
  rw [if_neg (by rw [hne]; exact Bool.false_ne_true)]
  exact ⟨rfl, getD_append_self s.heap (Dict.setItem s.redis k v) [], rfl,
    getD_set_self s₂.heap a (Dict.pop m k₂) [] hlt, rfl⟩

/-- Witness for C2 amended: on the counterexample state, `clear_value "c"`
leaves the cache as `a ↦ 1` (derived from the stale cache) and its whole
trace is a single `hset`; and a `set_secure_value` on a fresh delegate
rebinds the cache to the reloaded record. -/
theorem C2_amended_witness :
    (clear_value "c"
      (⟨[[("a", "1"), ("c", "3")]], some 0,
        [("a", "1"), ("b", "2"), ("c", "3")], []⟩ : DelegateState)).2.heap.getD
      0 [] = [("a", "1")] ∧
    (set_secure_value "k" "v"
      (⟨[], none, [("x", "9")], []⟩ : DelegateState)).2.cacheRef = some 0 := by
  have H := C2_amended_only_set_reloads
    (⟨[], none, [("x", "9")], []⟩ : DelegateState)
    (⟨[[("a", "1"), ("c", "3")]], some 0,
      [("a", "1"), ("b", "2"), ("c", "3")], []⟩ : DelegateState)
    "k" "v" "c" 0 [("a", "1"), ("c", "3")]
    rfl (by decide) rfl (by decide) (by decide)
  refine ⟨?_, H.1⟩
  rw [H.2.2.2.1]
  decide

/-- Claim C4 counterexample: the cached dict is `a ↦ 1` while the remote
record is `a ↦ 1, b ↦ 2`.  The persist step succeeds but the remote record
afterwards is still `a ↦ 1, b ↦ 2`: it does not equal the in-memory map,
and the remote-side field `b`, absent from the in-memory map, survives —
`hset` merges, it does not overwrite. -/
theorem C4_counterexample :
    (save (⟨[[("a", "1")]], some 0, [("a", "1"), ("b", "2")],
      []⟩ : DelegateState)).1 = Except.ok () ∧
    (⟨[[("a", "1")]], some 0, [("a", "1"), ("b", "2")],
      []⟩ : DelegateState).heap.getD 0 [] = [("a", "1")] ∧
    (save (⟨[[("a", "1")]], some 0, [("a", "1"), ("b", "2")],
      []⟩ : DelegateState)).2.redis = [("a", "1"), ("b", "2")] ∧
    (save (⟨[[("a", "1")]], some 0, [("a", "1"), ("b", "2")],
      []⟩ : DelegateState)).2.redis ≠ [("a", "1")] := by
  decide

/-- Claim C4, amended: the persist step hands the entire in-memory map to
the store in one `hset`; every field of the in-memory map is written (the
remote record afterwards agrees with the in-memory map on those keys), but
the write is a merge: remote-side fields absent from the in-memory map keep
their previous values instead of being deleted. -/
theorem C4_amended_save_merges
    (s : DelegateState) (a : Nat) (m : Dict)
    (ha : s.cacheRef = some a) (hm : s.heap.getD a [] = m)
    (hnd : (m.map Prod.fst).Nodup) (hne : m.isEmpty = false) :
    (save s).1 = Except.ok () ∧
    (save s).2.log = s.log ++ [StoreOp.hset m] ∧
    (∀ k v, Dict.lookup? m k = some v →
      Dict.lookup? (save s).2.redis k = some v) ∧
    (∀ k, Dict.lookup? m k = none →
      Dict.lookup? (save s).2.redis k = Dict.lookup? s.redis k) := by
  have hm' : s.heap[a]?.getD [] = m := by
    rw [← List.getD_eq_getElem?_getD]
    exact hm
  have hres : save s =
      (Except.ok (), { s with redis := Dict.hsetAll s.redis m,
                              log := s.log ++ [StoreOp.hset m] }) := by
    simp [save, Redis.hset, ha, hm', hne]
  rw [hres]
  exact ⟨rfl, rfl,
    fun k v hkv => lookup_hsetAll_some s.redis m k v hnd hkv,
    fun k hk => lookup_hsetAll_none s.redis m k hk⟩

/-- Witness for C4 amended: persisting the in-memory map `a ↦ 1` against the
remote record `a ↦ 1, b ↦ 2` writes `a` and leaves `b` untouched. -/
theorem C4_amended_witness :
    Dict.lookup? (save (⟨[[("a", "1")]], some 0,
      [("a", "1"), ("b", "2")], []⟩ : DelegateState)).2.redis "a" =
      some "1" ∧
    Dict.lookup? (save (⟨[[("a", "1")]], some 0,
      [("a", "1"), ("b", "2")], []⟩ : DelegateState)).2.redis "b" =
      some "2" := by
  have H := C4_amended_save_merges
    (⟨[[("a", "1")]], some 0, [("a", "1"), ("b", "2")], []⟩ : DelegateState)
    0 [("a", "1")] rfl rfl (by decide) (by decide)
  refine ⟨H.2.2.1 "a" "1" (by decide), ?_⟩
  rw [H.2.2.2 "b" (by decide)]
  decide

/-- Claim C3 (code-bug evidence): with the record `a ↦ 1, b ↦ 2` cached and
on Redis, `clear_value "a"` succeeds and removes `a` from the in-memory
dict, but the persist step is an `hset` merge of the remaining map
`b ↦ 2`, which deletes nothing: the remote record still maps `a ↦ 1`, so
the entry is not removed from the persisted record as the claim (and the
method docstring, remove one value from the storage) requires. -/
theorem C3_clear_value_leaves_remote_entry :
    (clear_value "a" (⟨[[("a", "1"), ("b", "2")]], some 0,
      [("a", "1"), ("b", "2")], []⟩ : DelegateState)).1 = Except.ok () ∧
    (clear_value "a" (⟨[[("a", "1"), ("b", "2")]], some 0,
      [("a", "1"), ("b", "2")], []⟩ : DelegateState)).2.heap.getD 0 [] =
      [("b", "2")] ∧
    Dict.lookup? (clear_value "a" (⟨[[("a", "1"), ("b", "2")]], some 0,
      [("a", "1"), ("b", "2")], []⟩ : DelegateState)).2.redis "a" =
      some "1" ∧
    (clear_value "a" (⟨[[("a", "1"), ("b", "2")]], some 0,
      [("a", "1"), ("b", "2")], []⟩ : DelegateState)).2.log =
      [StoreOp.hset [("b", "2")]] := by
  decide

/-- Claim C5 (code-bug evidence): the source declares `clear_all_values`
without a `self` parameter, so invoking it on an adapter instance raises
`TypeError` — not the intended NotAllowed error that its own body
(`NotImplementedError`, Clear all values not allowed) would raise — while
the state (remote record and cache alike) is unmodified by the attempt. -/
theorem C5_clear_all_values_raises_type_error (s : DelegateState) :
    (clear_all_values s).2 = s ∧
    (clear_all_values s).1 = Except.error (PyError.typeError
      "clear_all_values takes 0 positional arguments but 1 was given") ∧
    clear_all_values_body = Except.error (PyError.notImplementedError
      "Clear all values not allowed") ∧
    ∀ msg, (clear_all_values s).1 ≠
      Except.error (PyError.notImplementedError msg) := by
  refine ⟨rfl, rfl, rfl, ?_⟩
  intro msg
  simp [clear_all_values]

/-- Claim C6 counterexample: a `keys()` view is obtained while the cache is
the dict `a ↦ 1` at address 0; a subsequent `set_secure_value "b" "2"`
reloads, which rebinds the cache to a fresh dict (address 1) and mutates
that fresh dict.  Enumerating the earlier view afterwards yields `["a"]` —
it does not reflect the mutation — while the current cache enumerates
`["a", "b"]`. -/
theorem C6_counterexample :
    (keys (⟨[[("a", "1")]], some 0, [("a", "1")],
      []⟩ : DelegateState)).1 = 0 ∧
    (set_secure_value "b" "2" (⟨[[("a", "1")]], some 0, [("a", "1")],
      []⟩ : DelegateState)).1 = Except.ok () ∧
    viewKeys (set_secure_value "b" "2" (⟨[[("a", "1")]], some 0,
      [("a", "1")], []⟩ : DelegateState)).2 0 = ["a"] ∧
    (set_secure_value "b" "2" (⟨[[("a", "1")]], some 0, [("a", "1")],
      []⟩ : DelegateState)).2.cacheRef = some 1 ∧
    viewKeys (set_secure_value "b" "2" (⟨[[("a", "1")]], some 0,
      [("a", "1")], []⟩ : DelegateState)).2 1 = ["a", "b"] ∧
    viewKeys (set_secure_value "b" "2" (⟨[[("a", "1")]], some 0,
      [("a", "1")], []⟩ : DelegateState)).2 0 ≠
      viewKeys (set_secure_value "b" "2" (⟨[[("a", "1")]], some 0,
        [("a", "1")], []⟩ : DelegateState)).2 1 := by
  decide

/-- Claim C6, amended: `keys()` / `items()` return live views over the dict
object the cache references when the view is created.  `clear_value`
mutates that object in place, so an earlier view reflects the deletion when
enumerated; but `set_secure_value` starts with a forced reload that rebinds
the cache to a fresh dict, so views obtained before it keep enumerating the
old dict unchanged and do not reflect the mutation. -/
theorem C6_amended_views_track_dict_objects
    (s s₂ : DelegateState) (a a₂ : Nat) (m : Dict) (k k₂ v₂ : String)
    (ha : s.cacheRef = some a) (hlt : a < s.heap.length)
    (hm : s.heap.getD a [] = m) (hk : Dict.containsKey m k = true)
    (ha₂ : s₂.cacheRef = some a₂) (hlt₂ : a₂ < s₂.heap.length) :
    (keys s).1 = a ∧ (keys s).2 = s ∧
    viewKeys (clear_value k s).2 a = (Dict.pop m k).map Prod.fst ∧
    viewItems (clear_value k s).2 a = Dict.pop m k ∧
    (keys s₂).1 = a₂ ∧ (keys s₂).2 = s₂ ∧
    viewKeys (set_secure_value k₂ v₂ s₂).2 a₂ = viewKeys s₂ a₂ ∧
    (set_secure_value k₂ v₂ s₂).2.cacheRef = some s₂.heap.length := by
  have hheap : (clear_value k s).2.heap = s.heap.set a (Dict.pop m k) := by
    rw [clear_spec_present_cached s a m k ha hlt hm hk]
    by_cases hpe : (Dict.pop m k).isEmpty = true
    · simp [hpe]
    · simp [hpe]
  have hkeys : keys s = (a, s) := by simp [keys, secretValue, ha]
  have hkeys₂ : keys s₂ = (a₂, s₂) := by simp [keys, secretValue, ha₂]
  have hset := set_spec s₂ k₂ v₂
  refine ⟨by rw [hkeys], by rw [hkeys], ?_, ?_, by rw [hkeys₂],
    by rw [hkeys₂], ?_, ?_⟩
  · simp only [viewKeys]
    rw [hheap, getD_set_self s.heap a (Dict.pop m k) [] hlt]
  · simp only [viewItems]
    rw [hheap, getD_set_self s.heap a (Dict.pop m k) [] hlt]
  · simp only [viewKeys, hset]
    rw [getD_append_lt s₂.heap (Dict.setItem s₂.redis k₂ v₂) [] a₂ hlt₂]
  · rw [hset]

/-- Witness for C6 amended: on the record `a ↦ 1, b ↦ 2` (cached at address
0), the view at address 0 enumerates `["b"]` after `clear_value "a"` (live
against the in-place pop), while after `set_secure_value "c" "3"` the view
at address 0 still enumerates `["a", "b"]` (the reload rebound the cache to
a fresh dict). -/
theorem C6_amended_witness :
    viewKeys (clear_value "a" (⟨[[("a", "1"), ("b", "2")]], some 0,
      [("a", "1"), ("b", "2")], []⟩ : DelegateState)).2 0 = ["b"] ∧
    viewKeys (set_secure_value "c" "3" (⟨[[("a", "1"), ("b", "2")]], some 0,
      [("a", "1"), ("b", "2")], []⟩ : DelegateState)).2 0 =
      ["a", "b"] := by
  have H := C6_amended_views_track_dict_objects
    (⟨[[("a", "1"), ("b", "2")]], some 0,
      [("a", "1"), ("b", "2")], []⟩ : DelegateState)
    (⟨[[("a", "1"), ("b", "2")]], some 0,
      [("a", "1"), ("b", "2")], []⟩ : DelegateState)
    0 0 [("a", "1"), ("b", "2")] "a" "c" "3"
    rfl (by decide) rfl (by decide) rfl (by decide)
  refine ⟨?_, ?_⟩
  · rw [H.2.2.1]
    decide
  · rw [H.2.2.2.2.2.2.1]
    decide

end JupyterHealth
